import Mathlib

/-!
# song_library: query builder and resource handlers

A shallow embedding of `utils/pagination_filtering.go`, `models/song.go` and
`controllers/song_controller.go`, together with models of the library calls
they make (`strconv.Atoi`, `url.Values.Get`, `encoding/json` decoding into a
struct, and the gorm store primitives `First`, `Find`, `Create`, `Save`,
`Delete`).  What the SQL engine behind the store decides (the meaning of a
condition text, the order of an unordered `SELECT`, how the key counter moves)
is a component of the store handle, so that statements about every store hold
for every engine.

Go strings are Lean strings, so byte sequences that are not valid UTF-8 are
outside the model.  Go `int` is 64 bits wide: values are `Int` and the
arithmetic of the offset is wrapped explicitly.
-/

set_option linter.dupNamespace false

namespace SongLibrary

/-! ## Go integers -/

/-- Largest value of a Go `uint64`. -/
def maxUint64 : Nat := 2 ^ 64 - 1

/-- The value a 64-bit signed register holds after computing `x`. -/
def wrapInt (x : Int) : Int := (x + 2 ^ 63) % 2 ^ 64 - 2 ^ 63

/-! ## strconv -/

/-- The two causes `strconv` reports in a `NumError`. -/
inductive NumError where
  | ErrSyntax
  | ErrRange
  deriving DecidableEq, Repr

/-- Digit value of one byte as in the `switch` of `strconv.ParseUint`: decimal
digits map to 0..9, ASCII letters to 10..35, anything else has no value.  A
character outside ASCII is encoded by bytes that are all at least 0x80, so its
first byte already has no value. -/
def digitVal (c : Char) : Option Nat :=
  let b := c.toNat
  if 48 ≤ b ∧ b ≤ 57 then some (b - 48)
  else if b < 128 ∧ 97 ≤ (b ||| 32) ∧ (b ||| 32) ≤ 122 then some ((b ||| 32) - 97 + 10)
  else none

/-- The digit loop of `strconv.ParseUint(s, 10, 64)`, started with accumulator
`n`.  On overflow it returns at once with the maximum value and `ErrRange`,
without looking at the bytes that follow. -/
def parseUintLoop : List Char → Nat → Nat × Option NumError
  | [], n => (n, none)
  | c :: cs, n =>
    match digitVal c with
    | none => (0, some NumError.ErrSyntax)
    | some d =>
      if d ≥ 10 then (0, some NumError.ErrSyntax)
      else if n ≥ maxUint64 / 10 + 1 then (maxUint64, some NumError.ErrRange)
      else
        let n10 := (n * 10) % 2 ^ 64
        let n1 := (n10 + d) % 2 ^ 64
        if n1 < n10 ∨ n1 > maxUint64 then (maxUint64, some NumError.ErrRange)
        else parseUintLoop cs n1

/-- Model of `strconv.ParseUint(s, 10, 64)`. -/
def ParseUint (s : List Char) : Nat × Option NumError :=
  if s = [] then (0, some NumError.ErrSyntax) else parseUintLoop s 0

/-- Model of `strconv.ParseInt(s, 10, 0)` on a 64-bit platform. -/
def ParseInt (s : List Char) : Int × Option NumError :=
  match s with
  | [] => (0, some NumError.ErrSyntax)
  | c :: rest =>
    let neg := c = '-'
    let digits := if c = '+' ∨ c = '-' then rest else s
    match ParseUint digits with
    | (_, some NumError.ErrSyntax) => (0, some NumError.ErrSyntax)
    | (un, _) =>
      let cutoff : Nat := 2 ^ 63
      if ¬ neg ∧ un ≥ cutoff then (((cutoff - 1 : Nat) : Int), some NumError.ErrRange)
      else if neg ∧ un > cutoff then (-(cutoff : Int), some NumError.ErrRange)
      else if neg then (-(un : Int), none) else ((un : Int), none)

/-- The loop of the fast path of `strconv.Atoi`: every byte must be a decimal
digit. -/
def atoiFastLoop : List Char → Int → Option Int
  | [], n => some n
  | c :: cs, n =>
    if 48 ≤ c.toNat ∧ c.toNat ≤ 57 then atoiFastLoop cs (n * 10 + ((c.toNat - 48 : Nat) : Int))
    else none

/-- Model of `strconv.Atoi` on a 64-bit platform: the value and the error it
returns.  Strings of 1 to 18 bytes take the fast path, the others go through
`ParseInt`. -/
def Atoi (s : String) : Int × Option NumError :=
  let sLen := s.utf8ByteSize
  if 0 < sLen ∧ sLen < 19 then
    match s.data with
    | [] => (0, some NumError.ErrSyntax)
    | c :: rest =>
      let body := if c = '-' ∨ c = '+' then rest else s.data
      if (c = '-' ∨ c = '+') ∧ body.length < 1 then (0, some NumError.ErrSyntax)
      else
        match atoiFastLoop body 0 with
        | none => (0, some NumError.ErrSyntax)
        | some n => if c = '-' then (-n, none) else (n, none)
  else ParseInt s.data

/-! ## net/url and gorilla/mux -/

/-- Parsed query parameters, in the order they appear in the URL. -/
abbrev Values := List (String × String)

/-- Model of `url.Values.Get`: the first value stored under `key`, or the empty
string when there is none. -/
def Values.Get : Values → String → String
  | [], _ => ""
  | (k, v) :: rest, key => if k = key then v else Values.Get rest key

/-- Route variables extracted by the router (`mux.Vars`). -/
abbrev Vars := List (String × String)

/-- Indexing a Go `map[string]string`: the stored value, or the empty string
for a missing key. -/
def Vars.index : Vars → String → String
  | [], _ => ""
  | (k, v) :: rest, key => if k = key then v else Vars.index rest key

/-! ## models/song.go -/

/-- The `Song` struct.  `ID` is a Go `uint`. -/
structure Song where
  ID : Nat
  Group : String
  Song : String
  ReleaseDate : String
  Text : String
  Link : String
  deriving DecidableEq, Repr

/-- The zero value that `var song models.Song` declares. -/
def zeroSong : Song :=
  { ID := 0, Group := "", Song := "", ReleaseDate := "", Text := "", Link := "" }

/-! ## encoding/json: decoding a request body into a `Song` -/

/-- A JSON number literal, as far as a `uint` field can tell: a literal made of
decimal digits only, or any other literal (with a sign, a fraction or an
exponent), which `strconv.ParseUint` rejects. -/
inductive JSONNumber where
  | uintLit (n : Nat)
  | otherLit
  deriving DecidableEq, Repr

/-- The value of one member of the top-level JSON object.  The contents of a
nested array or object do not matter: no field of `Song` accepts one. -/
inductive JSONValue where
  | null
  | bool (b : Bool)
  | number (n : JSONNumber)
  | string (s : String)
  | array
  | object
  deriving DecidableEq, Repr

/-- What `json.Decoder` finds at the head of the request body: nothing
well-formed (an empty body included), the literal `null`, an object with its
members in source order, or another well-formed value (boolean, number, string,
array). -/
inductive Body where
  | malformed
  | null
  | object (members : List (String × JSONValue))
  | other
  deriving DecidableEq, Repr

/-- The errors `Decode` can return. -/
inductive DecodeError where
  | SyntaxError
  | UnmarshalTypeError
  deriving DecidableEq, Repr

/-- The fields of `Song`. -/
inductive Field where
  | ID
  | Group
  | Song
  | ReleaseDate
  | Text
  | Link
  deriving DecidableEq, Repr

/-- The `json:"..."` tag of each field. -/
def Field.jsonName : Field → String
  | Field.ID => "id"
  | Field.Group => "group"
  | Field.Song => "song"
  | Field.ReleaseDate => "releaseDate"
  | Field.Text => "text"
  | Field.Link => "link"

/-- All fields, in declaration order. -/
def Field.all : List Field :=
  [Field.ID, Field.Group, Field.Song, Field.ReleaseDate, Field.Text, Field.Link]

/-- Case folding of one rune as `encoding/json` does it when it compares an
object key with a field name: ASCII letters fold to upper case, and so do the
two runes outside ASCII whose fold orbit holds an ASCII letter (U+017F with
`S`, U+212A with `K`).  Every other rune folds to a rune outside ASCII, which
no tag of `Song` contains; it is left as it is. -/
def foldRune (c : Char) : Char :=
  if 97 ≤ c.toNat ∧ c.toNat ≤ 122 then Char.ofNat (c.toNat - 32)
  else if c.toNat = 0x17F then 'S'
  else if c.toNat = 0x212A then 'K'
  else c

/-- Folded form of a name. -/
def foldName (s : String) : String := String.mk (s.data.map foldRune)

/-- The field an object key is stored into: the field whose tag equals the key,
else the field whose tag equals it up to case folding, else none (the member is
skipped). -/
def fieldByName (key : String) : Option Field :=
  match Field.all.find? (fun f => f.jsonName = key) with
  | some f => some f
  | none => Field.all.find? (fun f => foldName f.jsonName = foldName key)

/-- Storing one JSON value into one field.  `null` leaves the field as it is; a
`uint` field takes a digits-only number literal that fits 64 bits; a `string`
field takes a JSON string; every other combination is a type error. -/
def setField (song : Song) (f : Field) (v : JSONValue) : Except DecodeError Song :=
  match v with
  | JSONValue.null => Except.ok song
  | JSONValue.number (JSONNumber.uintLit n) =>
    match f with
    | Field.ID =>
      if n ≤ maxUint64 then Except.ok { song with ID := n }
      else Except.error DecodeError.UnmarshalTypeError
    | _ => Except.error DecodeError.UnmarshalTypeError
  | JSONValue.string s =>
    match f with
    | Field.ID => Except.error DecodeError.UnmarshalTypeError
    | Field.Group => Except.ok { song with Group := s }
    | Field.Song => Except.ok { song with Song := s }
    | Field.ReleaseDate => Except.ok { song with ReleaseDate := s }
    | Field.Text => Except.ok { song with Text := s }
    | Field.Link => Except.ok { song with Link := s }
  | _ => Except.error DecodeError.UnmarshalTypeError

/-- Decoding the members of an object into `song`, left to right.  The decoder
itself goes on after a type error and reports the first one at the end; the
callers discard the struct whenever an error is returned, so the model stops at
the first error. -/
def decodeMembers : List (String × JSONValue) → Song → Except DecodeError Song
  | [], song => Except.ok song
  | (k, v) :: rest, song =>
    match fieldByName k with
    | none => decodeMembers rest song
    | some f =>
      match setField song f v with
      | Except.ok song1 => decodeMembers rest song1
      | Except.error e => Except.error e

/-- Model of `json.NewDecoder(r.Body).Decode(&song)`: the struct `song` points
to is updated in place, so fields the body does not mention keep the value they
had. -/
def Decode (body : Body) (song : Song) : Except DecodeError Song :=
  match body with
  | Body.malformed => Except.error DecodeError.SyntaxError
  | Body.null => Except.ok song
  | Body.other => Except.error DecodeError.UnmarshalTypeError
  | Body.object members => decodeMembers members song

/-- An inbound request: query parameters, route variables and body. -/
structure Request where
  query : Values
  vars : Vars
  body : Body
  deriving DecidableEq, Repr

/-! ## utils/pagination_filtering.go -/

/-- The query object gorm accumulates: offset, limit and the `Where` conditions
in the order they were added, each with its argument. -/
structure Query where
  offset : Int
  limit : Int
  wheres : List (String × String)
  deriving DecidableEq, Repr

/-- The local variable `page` of `ApplyPaginationAndFiltering` once its default
has been applied. -/
def pageOf (r : Request) : Int :=
  let pageStr := r.query.Get "page"
  let page := (Atoi pageStr).1
  if page < 1 then 1 else page

/-- The local variable `limit` of `ApplyPaginationAndFiltering` once its default
has been applied. -/
def limitOf (r : Request) : Int :=
  let limitStr := r.query.Get "limit"
  let limit := (Atoi limitStr).1
  if limit < 1 then 10 else limit

/-- `ApplyPaginationAndFiltering`: the errors of `Atoi` are dropped, the offset
is computed in `int` arithmetic, and one condition is added for each non-empty
filter parameter. -/
def ApplyPaginationAndFiltering (r : Request) : Query :=
  let page := pageOf r
  let limit := limitOf r
  let offset := wrapInt (wrapInt (page - 1) * limit)
  let group := r.query.Get "group"
  let song := r.query.Get "song"
  let releaseDate := r.query.Get "releaseDate"
  let query : Query := { offset := offset, limit := limit, wheres := [] }
  let query := if group ≠ "" then { query with wheres := query.wheres ++ [("group = ?", group)] } else query
  let query := if song ≠ "" then { query with wheres := query.wheres ++ [("song = ?", song)] } else query
  let query := if releaseDate ≠ "" then
    { query with wheres := query.wheres ++ [("release_date = ?", releaseDate)] } else query
  query

/-! ## The store behind `*gorm.DB`

The relational store is outside the repository.  The handle is modelled as the
table of songs, kept in the order the rows were inserted, the highest value the
auto-increment key has reached, and the SQL engine the handle talks to. -/

/-- What the SQL engine decides and the handlers cannot see.

* `cond sql args` is the meaning of a condition text with its bound arguments:
  a test of one row against the whole table, or `none` when the engine rejects
  the statement.
* `scan rows` is the order in which a `SELECT` without `ORDER BY` returns the
  rows of the table.
* `counterFollowsKeys` says whether inserting an explicit key moves the
  auto-increment counter up to that key (SQLite with `AUTOINCREMENT`) or
  leaves it where it is (a PostgreSQL sequence). -/
structure Engine where
  cond : String → List String → Option (List Song → Song → Bool)
  scan : List Song → List Song
  counterFollowsKeys : Bool

/-- Rows in ascending key order. -/
def byKey (rows : List Song) : List Song :=
  rows.insertionSort (fun a b => a.ID ≤ b.ID)

/-- Conditions of the engine `setupTestDB` opens (SQLite), for the condition texts
that occur in the examples of this file: `group` is a reserved word, so the
text `group = ?` is a syntax error; `song = ?` and `release_date = ?` compare a
column with the argument; `1=1` holds for every row; and
`id=(select min(id) from songs)` holds for the row whose key is the least of
the table.  Every other text is reported as rejected, which is not what the
engine does with it: statements about arbitrary text are made for every
`Engine`, never through this one. -/
def testEngineCond (sql : String) (args : List String) :
    Option (List Song → Song → Bool) :=
  if sql = "group = ?" then none
  else if sql = "song = ?" then
    match args with
    | [v] => some (fun _ s => decide (s.Song = v))
    | _ => none
  else if sql = "release_date = ?" then
    match args with
    | [v] => some (fun _ s => decide (s.ReleaseDate = v))
    | _ => none
  else if sql = "1=1" ∧ args = [] then some (fun _ _ => true)
  else if sql = "id=(select min(id) from songs)" ∧ args = [] then
    some (fun table s => table.all (fun t => decide (s.ID ≤ t.ID)))
  else none

/-- The engine `setupTestDB` opens: rows come back in key order and an explicit
key moves the counter. -/
def testEngine : Engine :=
  { cond := testEngineCond, scan := byKey, counterFollowsKeys := true }

/-- An engine whose key sequence is not moved by an explicit key, as a
PostgreSQL sequence behaves; rows come back as they are stored. -/
def sequenceEngine : Engine :=
  { cond := testEngineCond, scan := fun rows => rows, counterFollowsKeys := false }

/-- The table of songs behind a handle.  A handle written without an engine
talks to `testEngine`. -/
structure DB where
  rows : List Song
  seq : Nat
  engine : Engine := testEngine

/-- Errors a store call can report. -/
inductive StoreError where
  | ErrRecordNotFound
  | ErrDuplicatedKey
  | ErrMissingWhereClause
  | ErrInvalidSQL
  | ErrKeyOutOfRange
  deriving DecidableEq, Repr

/-- The condition gorm writes for a primary key: the key column equals `k`. -/
def keyCondition (k : Int) : List Song → Song → Bool :=
  fun _ s => decide ((s.ID : Int) = k)

/-- How gorm reads the string condition of `First(&song, id)` and
`Delete(&Song{}, id)`: text that `strconv.Atoi` accepts is a primary key;
the empty text is no condition at all; any other text is handed to the engine
as a raw condition without arguments. -/
def idCondition (e : Engine) (id : String) : Option (List Song → Song → Bool) :=
  match Atoi id with
  | (k, none) => some (keyCondition k)
  | (_, some _) => if id = "" then some (fun _ _ => true) else e.cond id []

/-- The row with the least key among the rows `p` holds for (`ORDER BY id
LIMIT 1`); of two rows with the same key, the one stored first. -/
def firstByKey (p : Song → Bool) : List Song → Option Song
  | [] => none
  | s :: rest =>
    match firstByKey p rest with
    | none => if p s then some s else none
    | some t => if p s = true ∧ s.ID ≤ t.ID then some s else some t

/-- Model of `db.First(&song, id)`: the first row in key order that satisfies
the condition, or `ErrRecordNotFound`. -/
def DB.First (db : DB) (id : String) : Except StoreError Song :=
  match idCondition db.engine id with
  | none => Except.error StoreError.ErrInvalidSQL
  | some p =>
    match firstByKey (p db.rows) db.rows with
    | some s => Except.ok s
    | none => Except.error StoreError.ErrRecordNotFound

/-- The `Where` conditions of a query, joined by `AND`; `none` when the engine
rejects one of them. -/
def compileWheres (e : Engine) :
    List (String × String) → Option (List Song → Song → Bool)
  | [] => some (fun _ _ => true)
  | (sql, arg) :: rest =>
    match e.cond sql [arg], compileWheres e rest with
    | some p, some q => some (fun table s => p table s && q table s)
    | _, _ => none

/-- Model of `query.Find(&songs)`: the rows the conditions hold for, in the
order the engine returns them, without the first `offset` of them (an offset
that is not positive is left out of the statement), cut to `limit` rows (a
negative limit is left out). -/
def DB.Find (db : DB) (q : Query) : Except StoreError (List Song) :=
  match compileWheres db.engine q.wheres with
  | none => Except.error StoreError.ErrInvalidSQL
  | some p =>
    let matching := (db.engine.scan db.rows).filter (p db.rows)
    let skipped := matching.drop q.offset.toNat
    Except.ok (if q.limit < 0 then skipped else skipped.take q.limit.toNat)

/-- Inserting a row under a given key: the key column is a signed 64-bit
integer and keys are unique. -/
def DB.insert (db : DB) (song : Song) (seq : Nat) : Except StoreError (Song × DB) :=
  if song.ID ≥ 2 ^ 63 then Except.error StoreError.ErrKeyOutOfRange
  else if db.rows.any (fun s => s.ID = song.ID) then Except.error StoreError.ErrDuplicatedKey
  else Except.ok (song, { db with rows := db.rows ++ [song], seq := seq })

/-- Model of `db.Create(&song)`.  A zero `ID` asks the store for the next key,
which is written back into the struct; a non-zero `ID` is inserted as given. -/
def DB.Create (db : DB) (song : Song) : Except StoreError (Song × DB) :=
  if song.ID = 0 then db.insert { song with ID := db.seq + 1 } (db.seq + 1)
  else db.insert song (if db.engine.counterFollowsKeys then max db.seq song.ID else db.seq)

/-- Model of `db.Save(&song)`: with a zero primary key it is `Create`;
otherwise every column of the row with that key is overwritten, and when no
row has the key the record is inserted. -/
def DB.Save (db : DB) (song : Song) : Except StoreError (Song × DB) :=
  if song.ID = 0 then db.Create song
  else if db.rows.any (fun s => s.ID = song.ID) then
    Except.ok (song, { db with rows := db.rows.map (fun s => if s.ID = song.ID then song else s) })
  else db.Create song

/-- Model of `db.Delete(&models.Song{}, id)`: the rows the condition holds for
are removed; removing none is not an error; a delete without a condition is
refused. -/
def DB.Delete (db : DB) (id : String) : Except StoreError DB :=
  if id = "" then Except.error StoreError.ErrMissingWhereClause
  else
    match idCondition db.engine id with
    | none => Except.error StoreError.ErrInvalidSQL
    | some p => Except.ok { db with rows := db.rows.filter (fun s => ¬ (p db.rows s = true)) }

/-! ## controllers/song_controller.go -/

/-- A call a handler makes on the store, with its argument. -/
inductive StoreCall where
  | First (id : String)
  | Find (q : Query)
  | Create (song : Song)
  | Save (song : Song)
  | Delete (id : String)
  deriving DecidableEq, Repr

/-- What a handler writes as the response body. -/
inductive ResponseBody where
  | empty
  | message (text : String)
  | song (s : Song)
  | songs (l : List Song)
  deriving DecidableEq, Repr

/-- The result of running a handler: status code, body, the store afterwards
and the store calls made, in order. -/
structure Outcome where
  status : Nat
  body : ResponseBody
  db : DB
  calls : List StoreCall

/-- Handler `GetSongs`. -/
def GetSongs (r : Request) (db : DB) : Outcome :=
  let query := ApplyPaginationAndFiltering r
  match db.Find query with
  | Except.error _ =>
    { status := 500, body := ResponseBody.message "Не удалось получить список песен",
      db := db, calls := [StoreCall.Find query] }
  | Except.ok songs =>
    { status := 200, body := ResponseBody.songs songs, db := db, calls := [StoreCall.Find query] }

/-- Handler `GetSong`. -/
def GetSong (r : Request) (db : DB) : Outcome :=
  let id := r.vars.index "id"
  match db.First id with
  | Except.error _ =>
    { status := 404, body := ResponseBody.message "Песня не найдена",
      db := db, calls := [StoreCall.First id] }
  | Except.ok song =>
    { status := 200, body := ResponseBody.song song, db := db, calls := [StoreCall.First id] }

/-- Handler `AddSong`. -/
def AddSong (r : Request) (db : DB) : Outcome :=
  match Decode r.body zeroSong with
  | Except.error _ =>
    { status := 400, body := ResponseBody.message "Неверный ввод", db := db, calls := [] }
  | Except.ok song =>
    match db.Create song with
    | Except.error _ =>
      { status := 500, body := ResponseBody.message "Не удалось сохранить песню",
        db := db, calls := [StoreCall.Create song] }
    | Except.ok (created, db1) =>
      { status := 201, body := ResponseBody.song created, db := db1,
        calls := [StoreCall.Create song] }

/-- Handler `UpdateSong`. -/
def UpdateSong (r : Request) (db : DB) : Outcome :=
  let id := r.vars.index "id"
  match db.First id with
  | Except.error _ =>
    { status := 404, body := ResponseBody.message "Песня не найдена",
      db := db, calls := [StoreCall.First id] }
  | Except.ok loaded =>
    match Decode r.body loaded with
    | Except.error _ =>
      { status := 400, body := ResponseBody.message "Неверный ввод",
        db := db, calls := [StoreCall.First id] }
    | Except.ok song =>
      match db.Save song with
      | Except.error _ =>
        { status := 500, body := ResponseBody.message "Не удалось обновить песню",
          db := db, calls := [StoreCall.First id, StoreCall.Save song] }
      | Except.ok (saved, db1) =>
        { status := 200, body := ResponseBody.song saved, db := db1,
          calls := [StoreCall.First id, StoreCall.Save song] }

/-- Handler `DeleteSong`. -/
def DeleteSong (r : Request) (db : DB) : Outcome :=
  let id := r.vars.index "id"
  match db.Delete id with
  | Except.error _ =>
    { status := 500, body := ResponseBody.message "Не удалось удалить песню",
      db := db, calls := [StoreCall.Delete id] }
  | Except.ok db1 =>
    { status := 204, body := ResponseBody.empty, db := db1, calls := [StoreCall.Delete id] }

/-! ## Vocabulary of the statements -/

/-- The content of a field, as the JSON value that writes it. -/
def fieldValue (s : Song) : Field → JSONValue
  | Field.ID => JSONValue.number (JSONNumber.uintLit s.ID)
  | Field.Group => JSONValue.string s.Group
  | Field.Song => JSONValue.string s.Song
  | Field.ReleaseDate => JSONValue.string s.ReleaseDate
  | Field.Text => JSONValue.string s.Text
  | Field.Link => JSONValue.string s.Link

/-- Some member of the object is stored into field `f` and is not `null`. -/
def membersSet (members : List (String × JSONValue)) (f : Field) : Bool :=
  members.any (fun kv => decide (fieldByName kv.1 = some f) && decide (kv.2 ≠ JSONValue.null))

/-- The body supplies a value for field `f`. -/
def bodySets (body : Body) (f : Field) : Bool :=
  match body with
  | Body.object members => membersSet members f
  | _ => false

/-- Characters that are decimal digits. -/
def isDigitChar (c : Char) : Prop := 48 ≤ c.toNat ∧ c.toNat ≤ 57

instance (c : Char) : Decidable (isDigitChar c) := by
  unfold isDigitChar
  infer_instance

/-- The number a sequence of decimal digits writes, continuing from `n`. -/
def decimalValueFrom (cs : List Char) (n : Nat) : Nat :=
  cs.foldl (fun acc c => acc * 10 + (c.toNat - 48)) n

/-- The number a sequence of decimal digits writes. -/
def decimalValue (cs : List Char) : Nat := decimalValueFrom cs 0

/-- The store can hand out its next key: the key fits the signed 64-bit column
and no row carries it yet. -/
def keyAvailable (db : DB) : Prop :=
  db.seq + 1 < 2 ^ 63 ∧ ∀ s ∈ db.rows, s.ID ≠ db.seq + 1

instance (db : DB) : Decidable (keyAvailable db) := by
  unfold keyAvailable
  infer_instance

/-! ## Facts about the `strconv` model -/

theorem length_le_utf8Len (cs : List Char) : cs.length ≤ String.utf8Len cs := by
  induction cs with
  | nil => simp
  | cons c cs ih =>
    have := Char.utf8Size_pos c
    simp only [List.length_cons, String.utf8Len_cons]
    omega

theorem atoiFastLoop_bounds (cs : List Char) :
    ∀ n m : Int, 0 ≤ n → atoiFastLoop cs n = some m →
      0 ≤ m ∧ m < (n + 1) * 10 ^ cs.length := by
  induction cs with
  | nil =>
    intro n m hn h
    simp only [atoiFastLoop, Option.some.injEq] at h
    subst h
    simp [hn]
  | cons c cs ih =>
    intro n m hn h
    simp only [atoiFastLoop] at h
    split at h
    · rename_i hc
      have hd : ((c.toNat - 48 : Nat) : Int) ≤ 9 := by omega
      have hd0 : (0 : Int) ≤ ((c.toNat - 48 : Nat) : Int) := by omega
      obtain ⟨h0, h1⟩ := ih _ m (by omega) h
      refine ⟨h0, lt_of_lt_of_le h1 ?_⟩
      have hp : (0 : Int) ≤ 10 ^ cs.length := by positivity
      rw [List.length_cons, pow_succ]
      nlinarith
    · exact absurd h (by simp)

theorem ParseInt_bounds (s : List Char) :
    -(2 : Int) ^ 63 ≤ (ParseInt s).1 ∧ (ParseInt s).1 ≤ 2 ^ 63 - 1 := by
  unfold ParseInt
  cases s with
  | nil => simp
  | cons c rest =>
    dsimp only
    generalize ParseUint (if c = '+' ∨ c = '-' then rest else c :: rest) = r
    rcases r with ⟨un, _ | _ | _⟩ <;> dsimp only <;> (try split_ifs) <;> simp_all <;> omega

theorem ParseInt_ErrSyntax_value (s : List Char) (h : (ParseInt s).2 = some NumError.ErrSyntax) :
    (ParseInt s).1 = 0 := by
  unfold ParseInt at h ⊢
  cases s with
  | nil => rfl
  | cons c rest =>
    dsimp only at h ⊢
    generalize ParseUint (if c = '+' ∨ c = '-' then rest else c :: rest) = r at h ⊢
    rcases r with ⟨un, _ | _ | _⟩ <;> dsimp only at h ⊢ <;> (try split_ifs at h ⊢) <;>
      first | rfl | exact absurd h (by simp)

theorem Atoi_bounds (s : String) :
    -(2 : Int) ^ 63 ≤ (Atoi s).1 ∧ (Atoi s).1 ≤ 2 ^ 63 - 1 := by
  obtain ⟨cs⟩ := s
  unfold Atoi
  simp only [String.utf8ByteSize_mk]
  split_ifs with hlen
  · have hl := length_le_utf8Len cs
    cases cs with
    | nil => simp
    | cons c rest =>
      dsimp only
      generalize hb : (if c = '-' ∨ c = '+' then rest else c :: rest) = body
      have hbl : body.length ≤ 18 := by
        subst hb
        split_ifs <;> simp only [List.length_cons] at hl ⊢ <;> omega
      cases hf : atoiFastLoop body 0 with
      | none => dsimp only; split_ifs <;> simp
      | some n =>
        obtain ⟨h0, h2⟩ := atoiFastLoop_bounds body 0 n le_rfl hf
        have hp : (10 : Int) ^ body.length ≤ 10 ^ 18 :=
          pow_le_pow_right₀ (by norm_num) hbl
        dsimp only
        split_ifs <;> dsimp only <;> constructor <;> norm_num at h2 hp ⊢ <;> omega
  · exact ParseInt_bounds cs

theorem Atoi_ErrSyntax_value (s : String) (h : (Atoi s).2 = some NumError.ErrSyntax) :
    (Atoi s).1 = 0 := by
  obtain ⟨cs⟩ := s
  unfold Atoi at h ⊢
  simp only [String.utf8ByteSize_mk] at h ⊢
  split_ifs at h ⊢ with hlen
  · cases cs with
    | nil => rfl
    | cons c rest =>
      dsimp only at h ⊢
      generalize (if c = '-' ∨ c = '+' then rest else c :: rest) = body at h ⊢
      cases hf : atoiFastLoop body 0 with
      | none => split_ifs <;> rfl
      | some n =>
        rw [hf] at h
        dsimp only at h
        split_ifs at h ⊢
        rfl
  · exact ParseInt_ErrSyntax_value cs h

theorem decimalValueFrom_ge (cs : List Char) : ∀ n, n ≤ decimalValueFrom cs n := by
  induction cs with
  | nil => intro n; simp [decimalValueFrom]
  | cons c cs ih =>
    intro n
    have := ih (n * 10 + (c.toNat - 48))
    simp only [decimalValueFrom, List.foldl_cons] at this ⊢
    omega

theorem atoiFastLoop_digits (cs : List Char) (hd : ∀ c ∈ cs, isDigitChar c) :
    ∀ n : Nat, atoiFastLoop cs (n : Int) = some ((decimalValueFrom cs n : Nat) : Int) := by
  induction cs with
  | nil => intro n; simp [atoiFastLoop, decimalValueFrom]
  | cons c cs ih =>
    intro n
    have hc : 48 ≤ c.toNat ∧ c.toNat ≤ 57 := hd c (List.mem_cons_self _ _)
    have := ih (fun x hx => hd x (List.mem_cons_of_mem _ hx)) (n * 10 + (c.toNat - 48))
    simp only [atoiFastLoop, hc, and_self, if_true, decimalValueFrom, List.foldl_cons] at this ⊢
    rw [← this]
    push_cast
    rfl

theorem digitVal_digit (c : Char) (hc : isDigitChar c) : digitVal c = some (c.toNat - 48) := by
  unfold isDigitChar at hc
  simp [digitVal, hc]

theorem parseUintLoop_digits (cs : List Char) (hd : ∀ c ∈ cs, isDigitChar c) :
    ∀ n : Nat, decimalValueFrom cs n < 2 ^ 64 →
      parseUintLoop cs n = (decimalValueFrom cs n, none) := by
  induction cs with
  | nil => intro n _; simp [parseUintLoop, decimalValueFrom]
  | cons c cs ih =>
    intro n hlt
    have hc : isDigitChar c := hd c (List.mem_cons_self _ _)
    have hc2 : 48 ≤ c.toNat ∧ c.toNat ≤ 57 := hc
    have hstep : decimalValueFrom (c :: cs) n = decimalValueFrom cs (n * 10 + (c.toNat - 48)) := rfl
    rw [hstep] at hlt ⊢
    have hge := decimalValueFrom_ge cs (n * 10 + (c.toNat - 48))
    have hih := ih (fun x hx => hd x (List.mem_cons_of_mem _ hx)) _ hlt
    have h1 : ¬ (c.toNat - 48 ≥ 10) := by omega
    have h2 : ¬ (n ≥ maxUint64 / 10 + 1) := by
      simp only [maxUint64]; omega
    have h3 : n * 10 % 2 ^ 64 = n * 10 := Nat.mod_eq_of_lt (by omega)
    have h4 : (n * 10 + (c.toNat - 48)) % 2 ^ 64 = n * 10 + (c.toNat - 48) :=
      Nat.mod_eq_of_lt (by omega)
    have h5 : ¬ (n * 10 + (c.toNat - 48) < n * 10 ∨ n * 10 + (c.toNat - 48) > maxUint64) := by
      simp only [maxUint64]; omega
    simp only [parseUintLoop, digitVal_digit c hc, h1, h2, h3, h4, h5, if_false]
    exact hih

theorem isDigitChar_utf8Len (cs : List Char) (hd : ∀ c ∈ cs, isDigitChar c) :
    String.utf8Len cs = cs.length := by
  induction cs with
  | nil => simp
  | cons c cs ih =>
    have hc : 48 ≤ c.toNat ∧ c.toNat ≤ 57 := hd c (List.mem_cons_self _ _)
    have h1 : c.utf8Size = 1 := by
      have : c.val.toNat ≤ 127 := by
        have : c.toNat = c.val.toNat := rfl
        omega
      simp only [Char.utf8Size]
      rw [if_pos]
      show c.val.toNat ≤ (127 : UInt32).toNat
      exact this
    simp only [String.utf8Len_cons, List.length_cons, h1,
      ih (fun x hx => hd x (List.mem_cons_of_mem _ hx))]

/-- `Atoi` reads a non-empty string of decimal digits whose value fits an
`int` as that value, without error. -/
theorem Atoi_decimal (cs : List Char) (hne : cs ≠ []) (hd : ∀ c ∈ cs, isDigitChar c)
    (hv : decimalValue cs < 2 ^ 63) :
    Atoi (String.mk cs) = ((decimalValue cs : Int), none) := by
  unfold Atoi
  simp only [String.utf8ByteSize_mk, isDigitChar_utf8Len cs hd]
  cases cs with
  | nil => exact absurd rfl hne
  | cons c rest =>
    have hc : 48 ≤ c.toNat ∧ c.toNat ≤ 57 := hd c (List.mem_cons_self _ _)
    have hm : c ≠ '-' := by intro h; subst h; simp at hc
    have hp : c ≠ '+' := by intro h; subst h; simp at hc
    split_ifs with hlen
    · have := atoiFastLoop_digits (c :: rest) hd 0
      simp only [Nat.cast_zero] at this
      simp [hm, hp, this, decimalValue]
    · have hu := parseUintLoop_digits (c :: rest) hd 0 (by unfold decimalValue at hv; omega)
      have hv2 : ¬ (decimalValueFrom (c :: rest) 0 ≥ 2 ^ 63) := by
        unfold decimalValue at hv; omega
      simp only [ParseInt, ParseUint, hm, hp, or_self, if_false, hu, decimalValue]
      simp only [ge_iff_le, not_le] at hv2
      simp
      omega

theorem digitChar_toNat (k : Nat) (hk : k < 10) : (Nat.digitChar k).toNat = 48 + k := by
  interval_cases k <;> rfl

theorem toDigitsCore_decimal (fuel : Nat) :
    ∀ (n : Nat) (ds : List Char), n < fuel →
      ∃ pre, Nat.toDigitsCore 10 fuel n ds = pre ++ ds ∧ pre ≠ [] ∧
        (∀ c ∈ pre, isDigitChar c) ∧ ∀ k, decimalValueFrom pre k = k * 10 ^ pre.length + n := by
  induction fuel with
  | zero => intro n ds h; omega
  | succ fuel ih =>
    intro n ds hn
    have hmod : n % 10 < 10 := Nat.mod_lt _ (by norm_num)
    have hdig : isDigitChar (Nat.digitChar (n % 10)) := by
      unfold isDigitChar
      rw [digitChar_toNat _ hmod]
      omega
    simp only [Nat.toDigitsCore]
    split_ifs with h0
    · refine ⟨[Nat.digitChar (n % 10)], rfl, by simp, ?_, ?_⟩
      · intro c hc
        rw [List.mem_singleton] at hc
        subst hc
        exact hdig
      · intro k
        simp only [decimalValueFrom, List.foldl_cons, List.foldl_nil, List.length_singleton,
          digitChar_toNat _ hmod, pow_one]
        omega
    · obtain ⟨pre, hpre, _, hall, hval⟩ :=
        ih (n / 10) (Nat.digitChar (n % 10) :: ds) (by omega)
      refine ⟨pre ++ [Nat.digitChar (n % 10)], by simp [hpre], by simp, ?_, ?_⟩
      · intro c hc
        rcases List.mem_append.mp hc with h | h
        · exact hall c h
        · rw [List.mem_singleton] at h
          subst h
          exact hdig
      · intro k
        have hv := hval k
        simp only [decimalValueFrom] at hv
        simp only [decimalValueFrom, List.foldl_append, List.foldl_cons, List.foldl_nil, hv,
          digitChar_toNat _ hmod, List.length_append, List.length_singleton, pow_succ]
        have := Nat.div_add_mod n 10
        have e : 48 + n % 10 - 48 = n % 10 := by omega
        rw [e]
        nlinarith [Nat.div_add_mod n 10]

/-- The decimal text of a natural number below 2^63 is read back by `Atoi`. -/
theorem Atoi_repr (n : Nat) (hn : n < 2 ^ 63) : Atoi (toString n) = ((n : Int), none) := by
  obtain ⟨pre, hpre, hne, hall, hval⟩ := toDigitsCore_decimal (n + 1) n [] (by omega)
  have hs : toString n = String.mk pre := by
    show Nat.repr n = _
    simp [Nat.repr, Nat.toDigits, hpre, List.asString]
  have hv : decimalValue pre = n := by
    have := hval 0
    simpa [decimalValue] using this
  rw [hs, Atoi_decimal pre hne hall (by omega), hv]

/-! ## Facts about the decoder model -/

theorem setField_null (a : Song) (g : Field) : setField a g JSONValue.null = Except.ok a := rfl

theorem setField_ok (a b : Song) (g : Field) (v : JSONValue)
    (h : setField a g v = Except.ok b) (hv : v ≠ JSONValue.null) :
    fieldValue b g = v ∧ (∀ f, f ≠ g → fieldValue b f = fieldValue a f) ∧
      ∀ z : Song, ∃ c, setField z g v = Except.ok c := by
  cases v with
  | null => exact absurd rfl hv
  | bool x => simp [setField] at h
  | array => simp [setField] at h
  | object => simp [setField] at h
  | number n =>
    cases n with
    | otherLit => simp [setField] at h
    | uintLit n =>
      cases g <;> simp only [setField, reduceCtorEq] at h
      split_ifs at h with hn
      simp only [Except.ok.injEq] at h
      subst h
      refine ⟨rfl, ?_, fun z => ⟨{ z with ID := n }, by simp [setField, hn]⟩⟩
      intro f hf
      cases f <;> first | rfl | exact absurd rfl hf
  | string s =>
    cases g <;> simp only [setField, reduceCtorEq, Except.ok.injEq] at h <;>
      (subst h
       refine ⟨rfl, ?_, fun z => ⟨_, rfl⟩⟩
       intro f hf
       cases f <;> first | rfl | exact absurd rfl hf)

theorem membersSet_cons (k : String) (v : JSONValue) (rest : List (String × JSONValue))
    (f : Field) :
    membersSet ((k, v) :: rest) f =
      ((decide (fieldByName k = some f) && decide (v ≠ JSONValue.null)) || membersSet rest f) := by
  simp [membersSet]

theorem membersSet_cons_none (k : String) (v : JSONValue) (rest : List (String × JSONValue))
    (f : Field) (hk : fieldByName k = none) :
    membersSet ((k, v) :: rest) f = membersSet rest f := by
  rw [membersSet_cons, hk]
  simp

theorem membersSet_cons_null (k : String) (rest : List (String × JSONValue)) (f : Field) :
    membersSet ((k, JSONValue.null) :: rest) f = membersSet rest f := by
  rw [membersSet_cons]
  simp

theorem membersSet_cons_some (k : String) (v : JSONValue) (rest : List (String × JSONValue))
    (f g : Field) (hk : fieldByName k = some g) (hv : v ≠ JSONValue.null) :
    membersSet ((k, v) :: rest) f = (decide (g = f) || membersSet rest f) := by
  rw [membersSet_cons, hk]
  simp [hv]

theorem decodeMembers_frame (f : Field) (ms : List (String × JSONValue)) :
    ∀ a b : Song, decodeMembers ms a = Except.ok b → membersSet ms f = false →
      fieldValue b f = fieldValue a f := by
  induction ms with
  | nil =>
    intro a b h _
    simp only [decodeMembers, Except.ok.injEq] at h
    rw [h]
  | cons kv rest ih =>
    obtain ⟨k, v⟩ := kv
    intro a b h hs
    simp only [membersSet, List.any_cons, Bool.or_eq_false_iff, Bool.and_eq_false_iff,
      decide_eq_false_iff_not] at hs
    obtain ⟨hkv, hrest⟩ := hs
    cases hk : fieldByName k with
    | none =>
      simp only [decodeMembers, hk] at h
      exact ih a b h hrest
    | some g =>
      cases hset : setField a g v with
      | error e => simp only [decodeMembers, hk, hset, reduceCtorEq] at h
      | ok a1 =>
        simp only [decodeMembers, hk, hset] at h
        rw [ih a1 b h hrest]
        by_cases hv : v = JSONValue.null
        · subst hv
          rw [setField_null] at hset
          simp only [Except.ok.injEq] at hset
          rw [hset]
        · have hfg : f ≠ g := by
            rcases hkv with h1 | h1
            · intro e; subst e; exact h1 hk
            · exact absurd hv (by simpa using h1)
          exact (setField_ok a a1 g v hset hv).2.1 f hfg

theorem decodeMembers_merge (ms : List (String × JSONValue)) :
    ∀ a b z : Song, decodeMembers ms a = Except.ok b →
      ∃ c, decodeMembers ms z = Except.ok c ∧
        ∀ f, fieldValue b f = if membersSet ms f then fieldValue c f else fieldValue a f := by
  induction ms with
  | nil =>
    intro a b z h
    simp only [decodeMembers, Except.ok.injEq] at h
    subst h
    exact ⟨z, rfl, fun f => by simp [membersSet]⟩
  | cons kv rest ih =>
    obtain ⟨k, v⟩ := kv
    intro a b z h
    cases hk : fieldByName k with
    | none =>
      simp only [decodeMembers, hk] at h ⊢
      obtain ⟨c, hc, hf⟩ := ih a b z h
      refine ⟨c, hc, fun f => ?_⟩
      rw [hf f, membersSet_cons_none k v rest f hk]
    | some g =>
      cases hset : setField a g v with
      | error e => simp only [decodeMembers, hk, hset, reduceCtorEq] at h
      | ok a1 =>
        simp only [decodeMembers, hk, hset] at h ⊢
        by_cases hv : v = JSONValue.null
        · subst hv
          rw [setField_null] at hset
          simp only [Except.ok.injEq] at hset
          subst hset
          obtain ⟨c, hc, hf⟩ := ih a b z h
          refine ⟨c, by simpa [setField_null] using hc, fun f => ?_⟩
          rw [hf f, membersSet_cons_null]
        · obtain ⟨hg, hframe, hz⟩ := setField_ok a a1 g v hset hv
          obtain ⟨z1, hz1⟩ := hz z
          obtain ⟨hg1, hframe1, _⟩ := setField_ok z z1 g v hz1 hv
          obtain ⟨c, hc, hf⟩ := ih a1 b z1 h
          refine ⟨c, by simpa [hz1] using hc, fun f => ?_⟩
          rw [hf f, membersSet_cons_some k v rest f g hk hv]
          by_cases hr : membersSet rest f = true
          · simp [hr]
          · have hr2 : membersSet rest f = false := by simpa using hr
            have hcz : fieldValue c f = fieldValue z1 f := decodeMembers_frame f rest z1 c hc hr2
            by_cases hfg : g = f
            · subst hfg
              simp [hr2, hcz, hg, hg1]
            · have hne : f ≠ g := fun e => hfg e.symm
              simp [hr2, hfg, hframe f hne]

/-- Decoding merges: a field the body supplies takes the value the body alone
decodes to, a field it does not supply keeps the value it had. -/
theorem Decode_merge (body : Body) (a b : Song) (h : Decode body a = Except.ok b) :
    ∃ c, Decode body zeroSong = Except.ok c ∧
      ∀ f, fieldValue b f = if bodySets body f then fieldValue c f else fieldValue a f := by
  cases body with
  | malformed => simp [Decode] at h
  | other => simp [Decode] at h
  | null =>
    simp only [Decode, Except.ok.injEq] at h
    subst h
    exact ⟨zeroSong, rfl, fun f => by simp [bodySets]⟩
  | object ms =>
    simp only [Decode] at h ⊢
    exact decodeMembers_merge ms a b zeroSong h

/-! ## Facts about the query builder -/

theorem wrapInt_of_range (x : Int) (h0 : -(2 : Int) ^ 63 ≤ x) (h1 : x < 2 ^ 63) :
    wrapInt x = x := by
  unfold wrapInt
  rw [Int.emod_eq_of_lt (by omega) (by omega)]
  omega

theorem pageOf_bounds (r : Request) : 1 ≤ pageOf r ∧ pageOf r ≤ 2 ^ 63 - 1 := by
  have h := Atoi_bounds (r.query.Get "page")
  unfold pageOf
  dsimp only
  split_ifs <;> omega

theorem limitOf_bounds (r : Request) : 1 ≤ limitOf r ∧ limitOf r ≤ 2 ^ 63 - 1 := by
  have h := Atoi_bounds (r.query.Get "limit")
  unfold limitOf
  dsimp only
  split_ifs <;> omega

theorem ApplyPaginationAndFiltering_limit (r : Request) :
    (ApplyPaginationAndFiltering r).limit = limitOf r := by
  unfold ApplyPaginationAndFiltering
  dsimp only
  split_ifs <;> rfl

theorem ApplyPaginationAndFiltering_offset (r : Request) :
    (ApplyPaginationAndFiltering r).offset = wrapInt ((pageOf r - 1) * limitOf r) := by
  have hp := pageOf_bounds r
  have hw : wrapInt (pageOf r - 1) = pageOf r - 1 := wrapInt_of_range _ (by omega) (by omega)
  unfold ApplyPaginationAndFiltering
  dsimp only
  rw [hw]
  split_ifs <;> rfl

theorem ApplyPaginationAndFiltering_wheres (r : Request) :
    (ApplyPaginationAndFiltering r).wheres =
      (if r.query.Get "group" ≠ "" then [("group = ?", r.query.Get "group")] else []) ++
      (if r.query.Get "song" ≠ "" then [("song = ?", r.query.Get "song")] else []) ++
      (if r.query.Get "releaseDate" ≠ "" then [("release_date = ?", r.query.Get "releaseDate")]
        else []) := by
  unfold ApplyPaginationAndFiltering
  dsimp only
  split_ifs <;> rfl

/-! ## Facts about the store model -/

theorem firstByKey_some (p : Song → Bool) (l : List Song) :
    ∀ t, firstByKey p l = some t → t ∈ l ∧ p t = true := by
  induction l with
  | nil => intro t h; simp [firstByKey] at h
  | cons s rest ih =>
    intro t h
    simp only [firstByKey] at h
    cases hr : firstByKey p rest with
    | none =>
      rw [hr] at h
      dsimp only at h
      split_ifs at h with hp
      simp only [Option.some.injEq] at h
      subst h
      exact ⟨List.mem_cons_self _ _, hp⟩
    | some u =>
      rw [hr] at h
      dsimp only at h
      obtain ⟨hu, hpu⟩ := ih u hr
      split_ifs at h with hp
      · simp only [Option.some.injEq] at h
        subst h
        exact ⟨List.mem_cons_self _ _, hp.1⟩
      · simp only [Option.some.injEq] at h
        subst h
        exact ⟨List.mem_cons_of_mem _ hu, hpu⟩

theorem firstByKey_none (p : Song → Bool) (l : List Song) (h : ∀ s ∈ l, p s = false) :
    firstByKey p l = none := by
  cases hf : firstByKey p l with
  | none => rfl
  | some t =>
    obtain ⟨ht, hpt⟩ := firstByKey_some p l t hf
    rw [h t ht] at hpt
    exact absurd hpt (by simp)

theorem firstByKey_found (p : Song → Bool) (l : List Song) :
    ∀ s ∈ l, p s = true → ∃ t, firstByKey p l = some t := by
  induction l with
  | nil => intro s hs; simp at hs
  | cons a rest ih =>
    intro s hs hp
    simp only [firstByKey]
    cases hr : firstByKey p rest with
    | some u =>
      dsimp only
      split_ifs
      · exact ⟨a, rfl⟩
      · exact ⟨u, rfl⟩
    | none =>
      dsimp only
      rcases List.mem_cons.mp hs with h | h
      · subst h
        exact ⟨s, by simp [hp]⟩
      · obtain ⟨t, ht⟩ := ih s h hp
        rw [hr] at ht
        exact absurd ht (by simp)

theorem firstByKey_unique (p : Song → Bool) (l : List Song) (c : Song) (hc : c ∈ l)
    (hp : p c = true) (hu : ∀ s ∈ l, p s = true → s = c) : firstByKey p l = some c := by
  obtain ⟨t, ht⟩ := firstByKey_found p l c hc hp
  obtain ⟨hmem, hpt⟩ := firstByKey_some p l t ht
  rw [ht, hu t hmem hpt]

theorem idCondition_key (e : Engine) (id : String) (h : (Atoi id).2 = none) :
    id ≠ "" ∧
    idCondition e id = some (keyCondition (Atoi id).1) := by
  constructor
  · intro hid
    subst hid
    exact absurd h (by decide)
  · unfold idCondition
    cases ha : Atoi id with
    | mk k err =>
      rw [ha] at h
      simp only at h
      subst h
      rfl

theorem Create_next_key (db : DB) (song : Song) (h0 : song.ID = 0) (hk : keyAvailable db) :
    db.Create song = Except.ok
      ({ song with ID := db.seq + 1 },
       { db with rows := db.rows ++ [{ song with ID := db.seq + 1 }], seq := db.seq + 1 }) := by
  obtain ⟨hlt, hfree⟩ := hk
  have hge : ¬ (db.seq + 1 ≥ 2 ^ 63) := by omega
  have hany : (db.rows.any (fun s => decide (s.ID = db.seq + 1))) = false := by
    simp only [List.any_eq_false, decide_eq_true_eq]
    exact hfree
  unfold DB.Create DB.insert
  rw [if_pos h0]
  dsimp only
  rw [if_neg hge, hany]
  rfl

/-! ## Claims about the query builder and the list handler -/

/-- C4, as stated, fails: for the out-of-range text `9223372036854775808`
`Atoi` reports an error, yet the page used is 2^63 - 1 rather than 1, and
likewise the limit used is 2^63 - 1 rather than 10. -/
theorem parse_or_default_out_of_range :
    (Atoi "9223372036854775808").2 = some NumError.ErrRange ∧
    pageOf { query := [("page", "9223372036854775808")], vars := [], body := Body.null }
      = 9223372036854775807 ∧
    limitOf { query := [("limit", "9223372036854775808")], vars := [], body := Body.null }
      = 9223372036854775807 := by
  decide

/-- C4, amended: when `Atoi` reports a syntax error for the `page` text (absent,
empty or not a number) or returns a value below 1, the page used is 1; when it
does so for the `limit` text, the limit used is 10; the query is built from
these values and the function has no error result. -/
theorem parse_or_default (r : Request) :
    (((Atoi (r.query.Get "page")).2 = some NumError.ErrSyntax ∨
        (Atoi (r.query.Get "page")).1 < 1) → pageOf r = 1) ∧
    (((Atoi (r.query.Get "limit")).2 = some NumError.ErrSyntax ∨
        (Atoi (r.query.Get "limit")).1 < 1) → limitOf r = 10) ∧
    (ApplyPaginationAndFiltering r).limit = limitOf r ∧
    (ApplyPaginationAndFiltering r).offset = wrapInt ((pageOf r - 1) * limitOf r) := by
  refine ⟨?_, ?_, ApplyPaginationAndFiltering_limit r, ApplyPaginationAndFiltering_offset r⟩
  · intro h
    have hlt : (Atoi (r.query.Get "page")).1 < 1 := by
      rcases h with h | h
      · rw [Atoi_ErrSyntax_value _ h]; decide
      · exact h
    simp [pageOf, hlt]
  · intro h
    have hlt : (Atoi (r.query.Get "limit")).1 < 1 := by
      rcases h with h | h
      · rw [Atoi_ErrSyntax_value _ h]; decide
      · exact h
    simp [limitOf, hlt]

/-- C4 witness: `page=abc` is a syntax error and `limit=-5` is below 1; an
absent parameter reads as the empty string. -/
theorem parse_or_default_witness :
    pageOf { query := [("page", "abc"), ("limit", "-5")], vars := [], body := Body.null } = 1 ∧
    limitOf { query := [("page", "abc"), ("limit", "-5")], vars := [], body := Body.null } = 10 ∧
    pageOf { query := [], vars := [], body := Body.null } = 1 :=
  ⟨(parse_or_default _).1 (Or.inl (by decide)),
   (parse_or_default _).2.1 (Or.inr (by decide)),
   (parse_or_default _).1 (Or.inl (by decide))⟩

/-- C10, as stated, fails: with `page=4611686018427387905` and `limit=2` the
product (page - 1) * limit is 2^63, which wraps to a negative offset. -/
theorem offset_negative_on_overflow :
    (ApplyPaginationAndFiltering
      { query := [("page", "4611686018427387905"), ("limit", "2")], vars := [],
        body := Body.null }).offset = -9223372036854775808 ∧
    ¬ (0 ≤ (ApplyPaginationAndFiltering
      { query := [("page", "4611686018427387905"), ("limit", "2")], vars := [],
        body := Body.null }).offset) := by
  decide

/-- C10, amended: the limit passed to the store is at least 1 for every pair of
strings; the offset is the wrapped product (page - 1) * limit, and it equals
the product and is non-negative whenever the product is below 2^63. -/
theorem offset_limit_bounds (r : Request) :
    1 ≤ (ApplyPaginationAndFiltering r).limit ∧
    (ApplyPaginationAndFiltering r).offset = wrapInt ((pageOf r - 1) * limitOf r) ∧
    ((pageOf r - 1) * limitOf r < 2 ^ 63 →
      (ApplyPaginationAndFiltering r).offset = (pageOf r - 1) * limitOf r ∧
      0 ≤ (ApplyPaginationAndFiltering r).offset) := by
  have hp := pageOf_bounds r
  have hl := limitOf_bounds r
  refine ⟨?_, ApplyPaginationAndFiltering_offset r, ?_⟩
  · rw [ApplyPaginationAndFiltering_limit]; exact hl.1
  · intro h
    have h0 : 0 ≤ (pageOf r - 1) * limitOf r := mul_nonneg (by omega) (by omega)
    rw [ApplyPaginationAndFiltering_offset, wrapInt_of_range _ (by omega) h]
    exact ⟨rfl, h0⟩

/-- C10 witness: `page=3`, `limit=7` gives offset 14. -/
theorem offset_limit_bounds_witness :
    (ApplyPaginationAndFiltering
      { query := [("page", "3"), ("limit", "7")], vars := [], body := Body.null }).offset
        = (pageOf { query := [("page", "3"), ("limit", "7")], vars := [], body := Body.null }
            - 1) *
          limitOf { query := [("page", "3"), ("limit", "7")], vars := [], body := Body.null } ∧
    0 ≤ (ApplyPaginationAndFiltering
      { query := [("page", "3"), ("limit", "7")], vars := [], body := Body.null }).offset :=
  (offset_limit_bounds _).2.2 (by decide)

/-- C6, evaluated at `GET /songs?group=b` over the rows (1, a, x) and
(2, b, y): the one condition built is the text `group = ?`, the engine behind
the tests rejects it, and the handler answers 500 without a list, where the
claim has the condition select row 2. -/
theorem GetSongs_group_filter_rejected :
    (ApplyPaginationAndFiltering
      { query := [("group", "b")], vars := [], body := Body.null }).wheres
      = [("group = ?", "b")] ∧
    (GetSongs { query := [("group", "b")], vars := [], body := Body.null }
      { rows := [{ ID := 1, Group := "a", Song := "x", ReleaseDate := "", Text := "", Link := "" },
                 { ID := 2, Group := "b", Song := "y", ReleaseDate := "", Text := "", Link := "" }],
        seq := 2 }).status = 500 ∧
    (GetSongs { query := [("group", "b")], vars := [], body := Body.null }
      { rows := [{ ID := 1, Group := "a", Song := "x", ReleaseDate := "", Text := "", Link := "" },
                 { ID := 2, Group := "b", Song := "y", ReleaseDate := "", Text := "", Link := "" }],
        seq := 2 }).body = ResponseBody.message "Не удалось получить список песен" := by
  decide

/-- Whatever the engine, `GetSongs` answers 500 exactly when the engine rejects
one of the conditions built, and otherwise 200 with the rows every condition
holds for, taken in the engine's order and cut by offset and limit. -/
theorem GetSongs_outcome (r : Request) (db : DB) :
    (compileWheres db.engine (ApplyPaginationAndFiltering r).wheres = none →
      (GetSongs r db).status = 500) ∧
    (∀ p, compileWheres db.engine (ApplyPaginationAndFiltering r).wheres = some p →
      (GetSongs r db).status = 200 ∧
      (GetSongs r db).body = ResponseBody.songs
        (let skipped := ((db.engine.scan db.rows).filter (p db.rows)).drop
            (ApplyPaginationAndFiltering r).offset.toNat
         if (ApplyPaginationAndFiltering r).limit < 0 then skipped
         else skipped.take (ApplyPaginationAndFiltering r).limit.toNat)) := by
  constructor
  · intro h
    simp [GetSongs, DB.Find, h]
  · intro p h
    simp [GetSongs, DB.Find, h]

/-- C5, as stated, fails twice.  With `page=4611686018427387905` and `limit=4`
the offset (page - 1) * limit = 2^64 wraps to 0, so the handler returns the
first row although the one-row sequence has nothing at position 2^64.  And the
rows come back in the engine's order, not in insertion order: after `POST
/song` with id 10 and then with id 5, `page=1`, `limit=1` returns the row with
id 5 on the engine of `setupTestDB`, while the first row inserted has id 10. -/
theorem GetSongs_offset_wraps :
    (GetSongs
      { query := [("page", "4611686018427387905"), ("limit", "4")], vars := [],
        body := Body.null }
      { rows := [{ ID := 1, Group := "a", Song := "x", ReleaseDate := "", Text := "",
                   Link := "" }], seq := 1 }).body
      = ResponseBody.songs
          [{ ID := 1, Group := "a", Song := "x", ReleaseDate := "", Text := "", Link := "" }] ∧
    (([{ ID := 1, Group := "a", Song := "x", ReleaseDate := "", Text := "", Link := "" }]
        : List Song).drop ((4611686018427387905 - 1) * 4)).take 4 = [] ∧
    (AddSong { query := [], vars := [],
               body := Body.object [("id", JSONValue.number (JSONNumber.uintLit 5))] }
      (AddSong { query := [], vars := [],
                 body := Body.object [("id", JSONValue.number (JSONNumber.uintLit 10))] }
        { rows := [], seq := 0 }).db).db.rows
      = [{ ID := 10, Group := "", Song := "", ReleaseDate := "", Text := "", Link := "" },
         { ID := 5, Group := "", Song := "", ReleaseDate := "", Text := "", Link := "" }] ∧
    (GetSongs { query := [("page", "1"), ("limit", "1")], vars := [], body := Body.null }
      { rows := [{ ID := 10, Group := "", Song := "", ReleaseDate := "", Text := "", Link := "" },
                 { ID := 5, Group := "", Song := "", ReleaseDate := "", Text := "", Link := "" }],
        seq := 10 }).body
      = ResponseBody.songs
          [{ ID := 5, Group := "", Song := "", ReleaseDate := "", Text := "", Link := "" }] := by
  decide

/-- C5, amended: for page and limit at least 1 and below 2^63, written in
decimal, with (page - 1) * limit below 2^63, and no filter parameter,
`GetSongs` answers 200 with the rows at positions (page - 1) * limit up to
(page - 1) * limit + limit - 1 of the sequence in which the engine returns the
rows of the table, at most `limit` of them, and leaves the store as it is. -/
theorem GetSongs_page (page limit : Nat) (r : Request) (db : DB)
    (hp : 1 ≤ page) (hl : 1 ≤ limit) (hpb : page < 2 ^ 63) (hlb : limit < 2 ^ 63)
    (hov : (page - 1) * limit < 2 ^ 63)
    (hqp : r.query.Get "page" = toString page) (hql : r.query.Get "limit" = toString limit)
    (hg : r.query.Get "group" = "") (hs : r.query.Get "song" = "")
    (hr : r.query.Get "releaseDate" = "") :
    (GetSongs r db).status = 200 ∧
    (GetSongs r db).body = ResponseBody.songs
      (((db.engine.scan db.rows).drop ((page - 1) * limit)).take limit) ∧
    (((db.engine.scan db.rows).drop ((page - 1) * limit)).take limit).length ≤ limit ∧
    (GetSongs r db).db = db := by
  have hpage : pageOf r = (page : Int) := by
    unfold pageOf
    simp only [hqp, Atoi_repr page hpb]
    rw [if_neg (by omega)]
  have hlimit : limitOf r = (limit : Int) := by
    unfold limitOf
    simp only [hql, Atoi_repr limit hlb]
    rw [if_neg (by omega)]
  have hprod : ((page : Int) - 1) * (limit : Int) = (((page - 1) * limit : Nat) : Int) := by
    push_cast [Nat.cast_sub hp]
    ring
  have hq : ApplyPaginationAndFiltering r =
      { offset := (((page - 1) * limit : Nat) : Int), limit := (limit : Int), wheres := [] } := by
    have h1 := ApplyPaginationAndFiltering_offset r
    have h2 := ApplyPaginationAndFiltering_limit r
    have h3 := ApplyPaginationAndFiltering_wheres r
    rw [hpage, hlimit, hprod, wrapInt_of_range _ (by omega) (by omega)] at h1
    rw [hlimit] at h2
    simp only [hg, hs, hr, ne_eq, not_true_eq_false, if_false, List.append_nil] at h3
    cases hqq : ApplyPaginationAndFiltering r with
    | mk o l w =>
      rw [hqq] at h1 h2 h3
      simp only at h1 h2 h3
      rw [h1, h2, h3]
  have hfind :
      db.Find { offset := (((page - 1) * limit : Nat) : Int), limit := (limit : Int), wheres := [] }
        = Except.ok (((db.engine.scan db.rows).drop ((page - 1) * limit)).take limit) := by
    unfold DB.Find
    have hneg : ¬ ((limit : Int) < 0) := by omega
    have hall : (db.engine.scan db.rows).filter ((fun _ _ => true) db.rows)
        = db.engine.scan db.rows := by simp
    simp only [compileWheres, hall, Int.toNat_ofNat, hneg, if_false]
  unfold GetSongs
  simp only [hq, hfind]
  exact ⟨trivial, trivial, List.length_take_le _ _, trivial⟩

/-- C5 witness: `page=2`, `limit=1` over the rows A, B returns B. -/
theorem GetSongs_page_witness :
    (GetSongs { query := [("page", "2"), ("limit", "1")], vars := [], body := Body.null }
      { rows := [{ ID := 1, Group := "a", Song := "x", ReleaseDate := "", Text := "", Link := "" },
                 { ID := 2, Group := "b", Song := "y", ReleaseDate := "", Text := "", Link := "" }],
        seq := 2 }).body
      = ResponseBody.songs
          [{ ID := 2, Group := "b", Song := "y", ReleaseDate := "", Text := "", Link := "" }] :=
  (GetSongs_page 2 1
    { query := [("page", "2"), ("limit", "1")], vars := [], body := Body.null }
    { rows := [{ ID := 1, Group := "a", Song := "x", ReleaseDate := "", Text := "", Link := "" },
               { ID := 2, Group := "b", Song := "y", ReleaseDate := "", Text := "", Link := "" }],
      seq := 2 }
    (by decide) (by decide) (by decide) (by decide) (by decide) (by decide) (by decide)
    (by decide) (by decide) (by decide)).2.1

/-! ## Claims about the other handlers -/

/-- The part of C7 the code does satisfy: when the lookup of the path id fails,
`UpdateSong` answers 404 whatever the body is, and when the lookup succeeds but
the body does not decode it answers 400; in both cases the only store call is
the lookup and the store is unchanged. -/
theorem UpdateSong_error_precedence (r : Request) (db : DB) :
    (∀ e, db.First (r.vars.index "id") = Except.error e →
      (UpdateSong r db).status = 404 ∧ (UpdateSong r db).db = db ∧
      (UpdateSong r db).calls = [StoreCall.First (r.vars.index "id")]) ∧
    (∀ loaded e, db.First (r.vars.index "id") = Except.ok loaded →
      Decode r.body loaded = Except.error e →
      (UpdateSong r db).status = 400 ∧ (UpdateSong r db).db = db ∧
      (UpdateSong r db).calls = [StoreCall.First (r.vars.index "id")]) := by
  constructor
  · intro e h
    simp [UpdateSong, h]
  · intro loaded e h hd
    simp [UpdateSong, h, hd]

/-- C7, evaluated at `PUT /song/1=1` with body {"song": "Z"} over the rows
(1, a, x) and (2, b, y): no row has the id `1=1`, yet the text is run as a
condition that holds for every row, the lookup returns row 1, and the handler
answers 200 and overwrites row 1, where the claim has 404 and no write. -/
theorem UpdateSong_raw_condition_id :
    (Atoi "1=1").2 = some NumError.ErrSyntax ∧
    (UpdateSong
      { query := [], vars := [("id", "1=1")],
        body := Body.object [("song", JSONValue.string "Z")] }
      { rows := [{ ID := 1, Group := "a", Song := "x", ReleaseDate := "", Text := "", Link := "" },
                 { ID := 2, Group := "b", Song := "y", ReleaseDate := "", Text := "", Link := "" }],
        seq := 2 }).status = 200 ∧
    (UpdateSong
      { query := [], vars := [("id", "1=1")],
        body := Body.object [("song", JSONValue.string "Z")] }
      { rows := [{ ID := 1, Group := "a", Song := "x", ReleaseDate := "", Text := "", Link := "" },
                 { ID := 2, Group := "b", Song := "y", ReleaseDate := "", Text := "", Link := "" }],
        seq := 2 }).calls
      = [StoreCall.First "1=1",
         StoreCall.Save
           { ID := 1, Group := "a", Song := "Z", ReleaseDate := "", Text := "", Link := "" }] ∧
    (UpdateSong
      { query := [], vars := [("id", "1=1")],
        body := Body.object [("song", JSONValue.string "Z")] }
      { rows := [{ ID := 1, Group := "a", Song := "x", ReleaseDate := "", Text := "", Link := "" },
                 { ID := 2, Group := "b", Song := "y", ReleaseDate := "", Text := "", Link := "" }],
        seq := 2 }).db.rows
      = [{ ID := 1, Group := "a", Song := "Z", ReleaseDate := "", Text := "", Link := "" },
         { ID := 2, Group := "b", Song := "y", ReleaseDate := "", Text := "", Link := "" }] := by
  decide

/-- The part of C8 the code does satisfy: for an id text `strconv.Atoi`
accepts, `DeleteSong` answers 204 whether or not a row had the id, afterwards
the lookup of that id finds no row, and a second `DeleteSong` with the same id
answers 204 and leaves the store as it is. -/
theorem DeleteSong_idempotent (r : Request) (db : DB)
    (h : (Atoi (r.vars.index "id")).2 = none) :
    (DeleteSong r db).status = 204 ∧ (DeleteSong r db).body = ResponseBody.empty ∧
    (DeleteSong r db).db.First (r.vars.index "id")
      = Except.error StoreError.ErrRecordNotFound ∧
    (DeleteSong r (DeleteSong r db).db).status = 204 ∧
    (DeleteSong r (DeleteSong r db).db).db = (DeleteSong r db).db := by
  have hne := (idCondition_key db.engine (r.vars.index "id") h).1
  have hc : ∀ e : Engine, idCondition e (r.vars.index "id")
      = some (keyCondition (Atoi (r.vars.index "id")).1) :=
    fun e => (idCondition_key e (r.vars.index "id") h).2
  have hdel : ∀ d : DB, DeleteSong r d =
      { status := 204, body := ResponseBody.empty,
        db := { d with rows := d.rows.filter (fun s =>
          ¬ (keyCondition (Atoi (r.vars.index "id")).1 d.rows s = true)) },
        calls := [StoreCall.Delete (r.vars.index "id")] } := by
    intro d
    simp only [DeleteSong, DB.Delete, hne, if_false, hc]
  rw [hdel db]
  refine ⟨rfl, rfl, ?_, ?_, ?_⟩
  · simp only [DB.First, hc]
    rw [firstByKey_none]
    intro s hs
    have := (List.mem_filter.mp hs).2
    simpa [keyCondition] using this
  · rw [hdel _]
  · rw [hdel _]
    simp [List.filter_filter, keyCondition]

/-- C8, evaluated at `DELETE /song/id=(select min(id) from songs)` over the
rows (1, a, x) and (2, b, y): the text is run as a condition, row 1 is removed
and the answer is 204; afterwards the lookup of the same id finds row 2, and a
second delete answers 204 and removes row 2, where the claim has the lookup
fail and the second delete leave the store unchanged.  At `DELETE /song/1=1`
every row is removed. -/
theorem DeleteSong_raw_condition_id :
    (DeleteSong
      { query := [], vars := [("id", "id=(select min(id) from songs)")], body := Body.null }
      { rows := [{ ID := 1, Group := "a", Song := "x", ReleaseDate := "", Text := "", Link := "" },
                 { ID := 2, Group := "b", Song := "y", ReleaseDate := "", Text := "", Link := "" }],
        seq := 2 }).status = 204 ∧
    (DeleteSong
      { query := [], vars := [("id", "id=(select min(id) from songs)")], body := Body.null }
      { rows := [{ ID := 1, Group := "a", Song := "x", ReleaseDate := "", Text := "", Link := "" },
                 { ID := 2, Group := "b", Song := "y", ReleaseDate := "", Text := "", Link := "" }],
        seq := 2 }).db.rows
      = [{ ID := 2, Group := "b", Song := "y", ReleaseDate := "", Text := "", Link := "" }] ∧
    (GetSong
      { query := [], vars := [("id", "id=(select min(id) from songs)")], body := Body.null }
      { rows := [{ ID := 2, Group := "b", Song := "y", ReleaseDate := "", Text := "", Link := "" }],
        seq := 2 }).body
      = ResponseBody.song
          { ID := 2, Group := "b", Song := "y", ReleaseDate := "", Text := "", Link := "" } ∧
    (DeleteSong
      { query := [], vars := [("id", "id=(select min(id) from songs)")], body := Body.null }
      { rows := [{ ID := 2, Group := "b", Song := "y", ReleaseDate := "", Text := "", Link := "" }],
        seq := 2 }).status = 204 ∧
    (DeleteSong
      { query := [], vars := [("id", "id=(select min(id) from songs)")], body := Body.null }
      { rows := [{ ID := 2, Group := "b", Song := "y", ReleaseDate := "", Text := "", Link := "" }],
        seq := 2 }).db.rows = [] ∧
    (DeleteSong { query := [], vars := [("id", "1=1")], body := Body.null }
      { rows := [{ ID := 1, Group := "a", Song := "x", ReleaseDate := "", Text := "", Link := "" },
                 { ID := 2, Group := "b", Song := "y", ReleaseDate := "", Text := "", Link := "" }],
        seq := 2 }).db.rows = [] := by
  decide

theorem fieldByName_group : fieldByName "group" = some Field.Group := by decide

theorem fieldByName_song : fieldByName "song" = some Field.Song := by decide

/-- C9, as stated, fails on stores the handlers themselves produce.  On the
engine of `setupTestDB`, after `POST /song` with id 2^63 - 1 the next key does
not fit the key column, and `AddSong` with body {group: G, song: S} answers
500.  On an engine whose key sequence an explicit key does not move, after
`POST /song` with id 1 the next key is taken, and `AddSong` answers 500 as
well. -/
theorem AddSong_next_key_unavailable :
    (AddSong { query := [], vars := [],
               body := Body.object [("group", JSONValue.string "G"),
                                    ("song", JSONValue.string "S")] }
      (AddSong { query := [], vars := [],
                 body := Body.object
                   [("id", JSONValue.number (JSONNumber.uintLit 9223372036854775807))] }
        { rows := [], seq := 0 }).db).status = 500 ∧
    (AddSong { query := [], vars := [],
               body := Body.object [("group", JSONValue.string "G"),
                                    ("song", JSONValue.string "S")] }
      (AddSong { query := [], vars := [],
                 body := Body.object [("id", JSONValue.number (JSONNumber.uintLit 1))] }
        { rows := [], seq := 0, engine := sequenceEngine }).db).status = 500 := by
  decide

/-- C9, amended: on every store that can hand out its next key (the key is
below 2^63 and no row carries it), `AddSong` with body {group: G, song: S}
answers 201 with a record of non-zero id, and `GetSong` with that id then
answers 200 with group G, song S and the other text fields empty. -/
theorem AddSong_GetSong_roundtrip (G S : String) (r r2 : Request) (db : DB)
    (hkey : keyAvailable db)
    (hbody : r.body = Body.object
      [("group", JSONValue.string G), ("song", JSONValue.string S)])
    (hid : r2.vars.index "id" = toString (db.seq + 1)) :
    (AddSong r db).status = 201 ∧
    (AddSong r db).body = ResponseBody.song
      { ID := db.seq + 1, Group := G, Song := S, ReleaseDate := "", Text := "", Link := "" } ∧
    db.seq + 1 ≠ 0 ∧
    (GetSong r2 (AddSong r db).db).status = 200 ∧
    (GetSong r2 (AddSong r db).db).body = ResponseBody.song
      { ID := db.seq + 1, Group := G, Song := S, ReleaseDate := "", Text := "", Link := "" } := by
  obtain ⟨hseq, hfree⟩ := hkey
  have hdec : Decode r.body zeroSong = Except.ok
      { ID := 0, Group := G, Song := S, ReleaseDate := "", Text := "", Link := "" } := by
    rw [hbody]
    simp [Decode, decodeMembers, fieldByName_group, fieldByName_song, setField, zeroSong]
  have hcreate := Create_next_key db
    { ID := 0, Group := G, Song := S, ReleaseDate := "", Text := "", Link := "" } rfl
    ⟨hseq, hfree⟩
  have hadd : AddSong r db =
      { status := 201,
        body := ResponseBody.song
          { ID := db.seq + 1, Group := G, Song := S, ReleaseDate := "", Text := "", Link := "" },
        db := { db with
                rows := db.rows ++
                  [{ ID := db.seq + 1, Group := G, Song := S, ReleaseDate := "", Text := "",
                     Link := "" }],
                seq := db.seq + 1 },
        calls := [StoreCall.Create
          { ID := 0, Group := G, Song := S, ReleaseDate := "", Text := "", Link := "" }] } := by
    simp only [AddSong, hdec, hcreate]
  have hcond : ∀ e : Engine, idCondition e (toString (db.seq + 1))
      = some (keyCondition ((db.seq + 1 : Nat) : Int)) := by
    intro e
    have h1 : (Atoi (toString (db.seq + 1))).2 = none := by rw [Atoi_repr _ hseq]
    have h2 := (idCondition_key e (toString (db.seq + 1)) h1).2
    rw [Atoi_repr _ hseq] at h2
    exact h2
  have hfind : firstByKey
      (keyCondition ((db.seq + 1 : Nat) : Int)
        (db.rows ++ [({ ID := db.seq + 1, Group := G, Song := S, ReleaseDate := "", Text := "",
                        Link := "" } : Song)]))
      (db.rows ++ [({ ID := db.seq + 1, Group := G, Song := S, ReleaseDate := "", Text := "",
                      Link := "" } : Song)])
      = some { ID := db.seq + 1, Group := G, Song := S, ReleaseDate := "", Text := "",
               Link := "" } := by
    apply firstByKey_unique
    · simp
    · simp [keyCondition]
    · intro s hs hp
      have hsid : s.ID = db.seq + 1 := by
        have : ((s.ID : Nat) : Int) = ((db.seq + 1 : Nat) : Int) := by
          simpa [keyCondition] using hp
        exact_mod_cast this
      rcases List.mem_append.mp hs with h | h
      · exact absurd hsid (hfree s h)
      · exact List.mem_singleton.mp h
  rw [hadd]
  refine ⟨rfl, rfl, by omega, ?_, ?_⟩
  · simp only [GetSong, DB.First, hid, hcond, hfind]
  · simp only [GetSong, DB.First, hid, hcond, hfind]

/-- C9 witness: adding {group: G, song: S} to a store with one row, then
fetching id 2. -/
theorem AddSong_GetSong_roundtrip_witness :
    (GetSong { query := [], vars := [("id", "2")], body := Body.null }
      (AddSong { query := [], vars := [],
                 body := Body.object [("group", JSONValue.string "G"),
                                      ("song", JSONValue.string "S")] }
        { rows := [{ ID := 1, Group := "a", Song := "x", ReleaseDate := "", Text := "",
                     Link := "" }], seq := 1 }).db).body
      = ResponseBody.song
          { ID := 2, Group := "G", Song := "S", ReleaseDate := "", Text := "", Link := "" } :=
  (AddSong_GetSong_roundtrip "G" "S"
    { query := [], vars := [],
      body := Body.object [("group", JSONValue.string "G"), ("song", JSONValue.string "S")] }
    { query := [], vars := [("id", "2")], body := Body.null }
    { rows := [{ ID := 1, Group := "a", Song := "x", ReleaseDate := "", Text := "", Link := "" }],
      seq := 1 }
    (by decide) rfl (by decide)).2.2.2.2

theorem UpdateSong_calls (r : Request) (db : DB) (loaded song : Song)
    (h1 : db.First (r.vars.index "id") = Except.ok loaded)
    (h2 : Decode r.body loaded = Except.ok song) :
    (UpdateSong r db).calls = [StoreCall.First (r.vars.index "id"), StoreCall.Save song] := by
  unfold UpdateSong
  simp only [h1, h2]
  cases db.Save song with
  | error e => rfl
  | ok p => rfl

/-- C1, evaluated at the request of `TestUpdateSong` (`PUT /song/1` with the
body `json.Marshal` writes for a `Song` whose `ID` is unset, hence `"id":0`):
the record handed to `Save` has id 0, a second row is inserted and row 1 keeps
its old content. -/
theorem UpdateSong_body_id_zero :
    (UpdateSong
      { query := [], vars := [("id", "1")],
        body := Body.object
          [("id", JSONValue.number (JSONNumber.uintLit 0)),
           ("group", JSONValue.string "UpdatedGroup"),
           ("song", JSONValue.string "UpdatedSong"),
           ("releaseDate", JSONValue.string ""),
           ("text", JSONValue.string ""),
           ("link", JSONValue.string "")] }
      { rows := [{ ID := 1, Group := "TestGroup", Song := "TestSong", ReleaseDate := "",
                   Text := "", Link := "" }], seq := 1 })
    = { status := 200,
        body := ResponseBody.song
          { ID := 2, Group := "UpdatedGroup", Song := "UpdatedSong", ReleaseDate := "",
            Text := "", Link := "" },
        db := { rows := [{ ID := 1, Group := "TestGroup", Song := "TestSong", ReleaseDate := "",
                           Text := "", Link := "" },
                         { ID := 2, Group := "UpdatedGroup", Song := "UpdatedSong",
                           ReleaseDate := "", Text := "", Link := "" }], seq := 2 },
        calls := [StoreCall.First "1",
                  StoreCall.Save
                    { ID := 0, Group := "UpdatedGroup", Song := "UpdatedSong", ReleaseDate := "",
                      Text := "", Link := "" }] } := by
  rfl

/-- The half of C1 the code does satisfy: when the body supplies no `id`, the
record handed to `Save` carries the id of the row that was looked up. -/
theorem UpdateSong_omitted_id (r : Request) (db : DB) (loaded song : Song)
    (h1 : db.First (r.vars.index "id") = Except.ok loaded)
    (h2 : Decode r.body loaded = Except.ok song)
    (h3 : bodySets r.body Field.ID = false) :
    (UpdateSong r db).calls = [StoreCall.First (r.vars.index "id"), StoreCall.Save song] ∧
    song.ID = loaded.ID := by
  refine ⟨UpdateSong_calls r db loaded song h1 h2, ?_⟩
  obtain ⟨c, _, hf⟩ := Decode_merge r.body loaded song h2
  have := hf Field.ID
  simpa [h3, fieldValue] using this

/-- C2, as stated, fails: updating the row (1, G, S, R, T, L) with the body
{"group": "X"} hands `Save` a record whose song is still S, while the body
alone decodes to an empty song. -/
theorem UpdateSong_keeps_omitted_fields :
    (UpdateSong
      { query := [], vars := [("id", "1")],
        body := Body.object [("group", JSONValue.string "X")] }
      { rows := [{ ID := 1, Group := "G", Song := "S", ReleaseDate := "R", Text := "T",
                   Link := "L" }], seq := 1 }).calls
      = [StoreCall.First "1",
         StoreCall.Save
           { ID := 1, Group := "X", Song := "S", ReleaseDate := "R", Text := "T", Link := "L" }] ∧
    Decode (Body.object [("group", JSONValue.string "X")]) zeroSong
      = Except.ok { ID := 0, Group := "X", Song := "", ReleaseDate := "", Text := "",
                    Link := "" } := by
  constructor <;> rfl

/-- C2, amended: for an existing record and a decodable body, the record handed
to `Save` has, in each of group, song, releaseDate, text and link, the value
the body alone decodes to when the body supplies that field, and the value the
record held before when it does not. -/
theorem UpdateSong_merges (r : Request) (db : DB) (loaded song : Song)
    (h1 : db.First (r.vars.index "id") = Except.ok loaded)
    (h2 : Decode r.body loaded = Except.ok song) :
    (UpdateSong r db).calls = [StoreCall.First (r.vars.index "id"), StoreCall.Save song] ∧
    ∃ alone, Decode r.body zeroSong = Except.ok alone ∧
      song.Group = (if bodySets r.body Field.Group then alone.Group else loaded.Group) ∧
      song.Song = (if bodySets r.body Field.Song then alone.Song else loaded.Song) ∧
      song.ReleaseDate =
        (if bodySets r.body Field.ReleaseDate then alone.ReleaseDate else loaded.ReleaseDate) ∧
      song.Text = (if bodySets r.body Field.Text then alone.Text else loaded.Text) ∧
      song.Link = (if bodySets r.body Field.Link then alone.Link else loaded.Link) := by
  refine ⟨UpdateSong_calls r db loaded song h1 h2, ?_⟩
  obtain ⟨c, hc, hf⟩ := Decode_merge r.body loaded song h2
  refine ⟨c, hc, ?_, ?_, ?_, ?_, ?_⟩
  · have := hf Field.Group
    by_cases hb : bodySets r.body Field.Group = true <;> simpa [hb, fieldValue] using this
  · have := hf Field.Song
    by_cases hb : bodySets r.body Field.Song = true <;> simpa [hb, fieldValue] using this
  · have := hf Field.ReleaseDate
    by_cases hb : bodySets r.body Field.ReleaseDate = true <;>
      simpa [hb, fieldValue] using this
  · have := hf Field.Text
    by_cases hb : bodySets r.body Field.Text = true <;> simpa [hb, fieldValue] using this
  · have := hf Field.Link
    by_cases hb : bodySets r.body Field.Link = true <;> simpa [hb, fieldValue] using this

/-- C2 witness: the body {"group": "X"} over the row (1, G, S, R, T, L). -/
theorem UpdateSong_merges_witness :
    ∃ alone, Decode (Body.object [("group", JSONValue.string "X")]) zeroSong = Except.ok alone ∧
      "X" = (if bodySets (Body.object [("group", JSONValue.string "X")]) Field.Group
              then alone.Group else "G") ∧
      "S" = (if bodySets (Body.object [("group", JSONValue.string "X")]) Field.Song
              then alone.Song else "S") ∧
      "R" = (if bodySets (Body.object [("group", JSONValue.string "X")]) Field.ReleaseDate
              then alone.ReleaseDate else "R") ∧
      "T" = (if bodySets (Body.object [("group", JSONValue.string "X")]) Field.Text
              then alone.Text else "T") ∧
      "L" = (if bodySets (Body.object [("group", JSONValue.string "X")]) Field.Link
              then alone.Link else "L") :=
  (UpdateSong_merges
    { query := [], vars := [("id", "1")],
      body := Body.object [("group", JSONValue.string "X")] }
    { rows := [{ ID := 1, Group := "G", Song := "S", ReleaseDate := "R", Text := "T",
                 Link := "L" }], seq := 1 }
    { ID := 1, Group := "G", Song := "S", ReleaseDate := "R", Text := "T", Link := "L" }
    { ID := 1, Group := "X", Song := "S", ReleaseDate := "R", Text := "T", Link := "L" }
    rfl rfl).2

/-- C3, as stated, fails: `POST /song` with the body {"id": 5, "group": "X"}
hands `Create` a record with id 5, and the created row has id 5. -/
theorem AddSong_body_id_used :
    (AddSong
      { query := [], vars := [],
        body := Body.object
          [("id", JSONValue.number (JSONNumber.uintLit 5)), ("group", JSONValue.string "X")] }
      { rows := [], seq := 0 })
    = { status := 201,
        body := ResponseBody.song
          { ID := 5, Group := "X", Song := "", ReleaseDate := "", Text := "", Link := "" },
        db := { rows := [{ ID := 5, Group := "X", Song := "", ReleaseDate := "", Text := "",
                           Link := "" }], seq := 5 },
        calls := [StoreCall.Create
          { ID := 5, Group := "X", Song := "", ReleaseDate := "", Text := "", Link := "" }] } := by
  rfl

/-- C3, amended: `AddSong` hands `Create` the record the body decodes to, its id
included; when the body supplies no `id` that id is 0, and whenever it is 0
and the store can hand out its next key, the answer is 201 and the created
record carries the key the store assigns. -/
theorem AddSong_create_argument (r : Request) (db : DB) (song : Song)
    (h : Decode r.body zeroSong = Except.ok song) :
    (AddSong r db).calls = [StoreCall.Create song] ∧
    (bodySets r.body Field.ID = false → song.ID = 0) ∧
    (song.ID = 0 → keyAvailable db →
      (AddSong r db).status = 201 ∧
      (AddSong r db).body = ResponseBody.song { song with ID := db.seq + 1 }) := by
  refine ⟨?_, ?_, ?_⟩
  · unfold AddSong
    simp only [h]
    cases db.Create song with
    | error e => rfl
    | ok p => rfl
  · intro hb
    obtain ⟨c, _, hf⟩ := Decode_merge r.body zeroSong song h
    have := hf Field.ID
    simpa [hb, fieldValue, zeroSong] using this
  · intro h0 hk
    simp only [AddSong, h, Create_next_key db song h0 hk]
    exact ⟨trivial, trivial⟩

/-- C3 witness: the body {"group": "X"} on a store whose counter is at 4. -/
theorem AddSong_create_argument_witness :
    (AddSong { query := [], vars := [], body := Body.object [("group", JSONValue.string "X")] }
      { rows := [], seq := 4 }).body
      = ResponseBody.song
          { ID := 5, Group := "X", Song := "", ReleaseDate := "", Text := "", Link := "" } :=
  ((AddSong_create_argument
    { query := [], vars := [], body := Body.object [("group", JSONValue.string "X")] }
    { rows := [], seq := 4 }
    { ID := 0, Group := "X", Song := "", ReleaseDate := "", Text := "", Link := "" }
    rfl).2.2 rfl (by decide)).2

end SongLibrary
